import Mathlib

/-!
# Upload pipeline of `main.go`: schema inference, identifier quoting, DDL/DML text, row load

A shallow embedding of `src/main.go`.  Go strings are modelled by Lean `String`s
(sequences of characters); every character the program tests for (the double
quote, the dot, the slash, white space) is ASCII or a single code point, so the
byte-level and the character-level readings of the library calls coincide on
well-formed text.  Library calls of the Go standard library (`strings`,
`fmt`, `path/filepath`, `net/http`) are modelled by their documented behaviour;
`strconv.ParseFloat`, `encoding/csv` and `excelize` are parameters.
-/

namespace TestEx

/-! ## Library: strings -/

/-- Body of `strings.ReplaceAll` for a non-empty `old`: scan left to right, at
every position where `old` starts emit `new` and drop the matched characters
(the counter holds how many matched characters are still to be dropped), so
matches never overlap. -/
def replaceFrom (old new : List Char) : Nat → List Char → List Char
  | _, [] => []
  | k + 1, _ :: cs => replaceFrom old new k cs
  | 0, c :: cs =>
    if old.isPrefixOf (c :: cs) then new ++ replaceFrom old new (old.length - 1) cs
    else c :: replaceFrom old new 0 cs

/-- Go `strings.ReplaceAll(s, old, new)`.  With an empty `old` Go inserts `new`
before the first character and after every character. -/
def ReplaceAll (s old new : String) : String :=
  if old.data = [] then ⟨new.data ++ s.data.flatMap (fun c => c :: new.data)⟩
  else ⟨replaceFrom old.data new.data 0 s.data⟩

/-- Go `strings.Join(elems, sep)`. -/
def Join : List String → String → String
  | [], _ => ""
  | [a], _ => a
  | a :: b :: rest, sep => a ++ sep ++ Join (b :: rest) sep

/-- Go `unicode.IsSpace`: the code points with the Unicode White_Space property. -/
def isSpace (c : Char) : Bool :=
  let n := c.toNat
  (9 ≤ n && n ≤ 13) || n = 32 || n = 0x85 || n = 0xA0 || n = 0x1680 ||
  (0x2000 ≤ n && n ≤ 0x200A) || n = 0x2028 || n = 0x2029 || n = 0x202F ||
  n = 0x205F || n = 0x3000

/-- Go `strings.TrimSpace`: drop leading and trailing white space. -/
def TrimSpace (s : String) : String :=
  ⟨((s.data.dropWhile isSpace).reverse.dropWhile isSpace).reverse⟩

/-! ## `quoteIdent` (main.go 163-166) -/

/-- Source `quoteIdent`: double every double quote, then wrap in double quotes. -/
def quoteIdent (ident : String) : String :=
  let ident := ReplaceAll ident "\"" "\"\""
  "\"" ++ ident ++ "\""

/-- Character-wise doubling of the double quote: the text the claim describes
as "every double-quote character replaced by two double-quote characters". -/
def doubleQuotes (s : List Char) : List Char :=
  s.flatMap (fun c => if c = '"' then ['"', '"'] else [c])

/-- Reader of the body of a SQL quoted identifier (after the opening quote):
two consecutive double quotes stand for one, the first double quote that is not
doubled ends the identifier.  Returns the identifier read and the text left
over; `none` when the identifier is never closed. -/
def readIdentBody : List Char → Option (List Char × List Char)
  | [] => none
  | [c] => if c = '"' then some ([], []) else none
  | c :: d :: rest =>
    if c = '"' then
      if d = '"' then (readIdentBody rest).map (fun p => ('"' :: p.1, p.2))
      else some ([], d :: rest)
    else (readIdentBody (d :: rest)).map (fun p => (c :: p.1, p.2))

/-- Reader of a SQL quoted identifier: an opening double quote, then the body. -/
def readQuotedIdent : List Char → Option (List Char × List Char)
  | [] => none
  | c :: rest => if c = '"' then readIdentBody rest else none

/-! ## Library: path/filepath, fmt -/

/-- Loop of Go `filepath.Ext`, run over the reversed path: walk back from the
last character, stop with no extension at a path separator, and at the first
dot return the suffix beginning there (the characters passed are kept in
`acc`). -/
def extLoop : List Char → List Char → List Char
  | [], _ => []
  | c :: rest, acc =>
    if c = '/' then []
    else if c = '.' then '.' :: acc
    else extLoop rest (c :: acc)

/-- Go `filepath.Ext`: the suffix beginning at the final dot of the final path
element, empty when there is none. -/
def Ext (path : String) : String :=
  ⟨extLoop path.data.reverse []⟩

/-- Go `%d` of a non-negative integer. -/
def fmtD (n : Nat) : String := Nat.repr n

/-- Go `%v` of a `[]string`: the elements separated by blanks, in brackets. -/
def fmtV (xs : List String) : String := "[" ++ Join xs " " ++ "]"

/-! ## The database handle -/

/-- One `db.Exec(query, args...)` call.  An argument is a Go `any`: `some s` is
the string `s`, `none` the nil interface a fresh `make([]any, n)` holds.  A nil
and an empty argument slice both bind no argument and are the empty list. -/
structure Call where
  query : String
  args : List (Option String)
deriving DecidableEq

/-- The database as the program sees it: given the calls executed so far and
the next call, `none` when the call succeeds and `some msg` when it fails with
an error whose text is `msg`. -/
abbrev DB := List Call → Call → Option String

/-- Result of a function returning a Go `error` after talking to the database:
the calls executed so far and the error (`none` is the nil error). -/
abbrev DBResult := List Call × Option String

/-- Go `db.Exec(query, args...)`: the call is recorded and the database answers. -/
def dbExec (db : DB) (log : List Call) (query : String) (args : List (Option String)) :
    DBResult :=
  (log ++ [⟨query, args⟩], db log ⟨query, args⟩)

/-! ## `indentColumnTypes` (main.go 136-161) -/

/-- Inner loop of `indentColumnTypes` for column `col`: the value of `isNum`
when the loop over the rows ends.  A row without a cell at `col` and a cell
blank after trimming are skipped (`continue`); the first cell that does not
parse ends the scan with `false` (`break`).  `parseFloatOk val` stands for
`strconv.ParseFloat(val, 64)` returning a nil error. -/
def columnIsNum (parseFloatOk : String → Bool) (col : Nat) : List (List String) → Bool
  | [] => true
  | row :: rest =>
    match row[col]? with
    | none => columnIsNum parseFloatOk col rest
    | some cell =>
      let val := TrimSpace cell
      if val = "" then columnIsNum parseFloatOk col rest
      else if parseFloatOk val then columnIsNum parseFloatOk col rest
      else false

/-- Source `indentColumnTypes`: one type name per header position. -/
def indentColumnTypes (parseFloatOk : String → Bool) (headers : List String)
    (rows : List (List String)) : List String :=
  (List.range headers.length).map fun col =>
    if columnIsNum parseFloatOk col rows then "NUMERIC" else "VARCHAR"

/-! ## `createTable` (main.go 168-189) -/

/-- Loop of `createTable` filling `cols` from header index `i` on.  Reading
`columnTypes[i]` beyond the slice is a run-time panic, modelled by `none`. -/
def createTableCols (columnTypes : List String) : Nat → List String → Option (List String)
  | _, [] => some []
  | i, h :: hs =>
    match columnTypes[i]? with
    | none => none
    | some t =>
      let cType := if t = "" then "VARCHAR" else t
      match createTableCols columnTypes (i + 1) hs with
      | none => none
      | some cols => some ((quoteIdent h ++ " " ++ cType) :: cols)

/-- Source `createTable`.  `none` is a panic; otherwise the calls executed and
the error returned. -/
def createTable (db : DB) (log : List Call) (tableName : String)
    (headers columnTypes : List String) : Option DBResult :=
  if headers.length = 0 then some (log, some "нет колонок")
  else
    match createTableCols columnTypes 0 headers with
    | none => none
    | some cols =>
      let sqlStr :=
        "CREATE TABLE IF NOT EXISTS " ++ quoteIdent tableName ++ " (" ++ Join cols ", " ++ ")"
      match dbExec db log sqlStr [] with
      | (log1, some err) => some (log1, some ("ошибка создания таблицы: " ++ err))
      | (log1, none) => some (log1, none)

/-! ## `insertRows` (main.go 191-222) -/

/-- Go `xs[i] = v`: a panic (`none`) when `i` is out of range. -/
def setIndex {α : Type} (xs : List α) (i : Nat) (v : α) : Option (List α) :=
  if i < xs.length then some (xs.set i v) else none

/-- Loop `for i := range headers` building `args` for one row, from index `i`
with `n` iterations left: a cell present at `i` is stored at `args[i]`, a
missing one replaces the whole slice by nil.  `none` is an index panic. -/
def rowArgsLoop (row : List String) : Nat → Nat → List (Option String) →
    Option (List (Option String))
  | _, 0, args => some args
  | i, n + 1, args =>
    if i < row.length then
      match row[i]? with
      | none => none
      | some cell =>
        match setIndex args i (some cell) with
        | none => none
        | some args1 => rowArgsLoop row (i + 1) n args1
    else rowArgsLoop row (i + 1) n []

/-- The argument slice `insertRows` builds for one row. -/
def rowArgs (headers row : List String) : Option (List (Option String)) :=
  rowArgsLoop row 0 headers.length (List.replicate headers.length none)

/-- The statement text `stmtTxt` of `insertRows`. -/
def insertStmt (tableName : String) (headers : List String) : String :=
  let colNames := headers.map quoteIdent
  let placeHolders := (List.range headers.length).map fun i => "$" ++ fmtD (i + 1)
  "INSERT INTO " ++ quoteIdent tableName ++ " (" ++ Join colNames ", " ++ ") VALUES (" ++
    Join placeHolders ", " ++ ")"

/-- Loop `for _, row := range rows` of `insertRows`: one `db.Exec` per row,
returning at the first error. -/
def execRows (db : DB) (stmtTxt : String) (headers : List String) :
    List Call → List (List String) → Option DBResult
  | log, [] => some (log, none)
  | log, row :: rest =>
    match rowArgs headers row with
    | none => none
    | some args =>
      match dbExec db log stmtTxt args with
      | (log1, some err) => some (log1, some ("ршибка вставки: " ++ err))
      | (log1, none) => execRows db stmtTxt headers log1 rest

/-- Source `insertRows`.  `none` is a panic. -/
def insertRows (db : DB) (log : List Call) (tableName : String) (headers : List String)
    (rows : List (List String)) : Option DBResult :=
  if rows.length = 0 then some (log, none)
  else execRows db (insertStmt tableName headers) headers log rows

/-! ## `readXLSX` (main.go 96-134) -/

/-- What `excelize` reports on an opened workbook: the name of sheet 0 (empty
when there is none) and the outcome of `f.Rows`: an error, or the rows the
iterator yields, each the outcome of `rowsIter.Columns()`. -/
structure Workbook where
  sheetName0 : String
  rows : Except String (List (Except String (List String)))

/-- Loop `for rowsIter.Next()` of `readXLSX`. -/
def readXLSXRows : Nat → List String → List (List String) →
    List (Except String (List String)) → Except String (List String × List (List String))
  | _, headers, rows, [] => .ok (headers, rows)
  | rowIndex, headers, rows, item :: rest =>
    match item with
    | .error err => .error ("ошибка чтения строк: " ++ err)
    | .ok row =>
      if rowIndex = 0 then readXLSXRows (rowIndex + 1) row rows rest
      else readXLSXRows (rowIndex + 1) headers (rows ++ [row]) rest

/-- Source `readXLSX`, on the outcome of `excelize.OpenReader(file)`. -/
def readXLSX (opened : Except String Workbook) :
    Except String (List String × List (List String)) :=
  match opened with
  | .error err => .error ("ошибка открытия файла: " ++ err)
  | .ok f =>
    if f.sheetName0 = "" then .error "в файле нет листов"
    else
      match f.rows with
      | .error err => .error ("ошибка чтения строк: " ++ err)
      | .ok items =>
        match readXLSXRows 0 [] [] items with
        | .error err => .error err
        | .ok (headers, rows) =>
          if headers.length = 0 then .error "нет заголовков" else .ok (headers, rows)

/-! ## Library: net/http response writer -/

/-- State of an `http.ResponseWriter`: the status line once it is written
(`none` before), and the body written so far. -/
structure Response where
  status : Option Nat
  body : String
deriving DecidableEq

/-- Go `w.WriteHeader(code)`: only the first call sets the status; a later call
is ignored (the server logs it as superfluous). -/
def Response.WriteHeader (w : Response) (code : Nat) : Response :=
  match w.status with
  | some _ => w
  | none => ⟨some code, w.body⟩

/-- Go `w.Write(data)`: a write before any `WriteHeader` first does
`WriteHeader(http.StatusOK)`. -/
def Response.Write (w : Response) (data : String) : Response :=
  let w1 := w.WriteHeader 200
  ⟨w1.status, w1.body ++ data⟩

/-- Go `http.Error(w, error, code)`: `w.WriteHeader(code)` then the message and
a newline. -/
def httpError (w : Response) (error : String) (code : Nat) : Response :=
  (w.WriteHeader code).Write (error ++ "\n")

/-! ## `uploadHandler` (main.go 20-94) -/

/-- The uploaded file as the handler sees it: name and size from the multipart
header, and what each reader returns on its content: `csv` is the outcome of
`reader.ReadAll()` with `Comma = ';'`, `xlsx` of `excelize.OpenReader`. -/
structure FormFile where
  fileName : String
  size : Nat
  csv : Except String (List (List String))
  xlsx : Except String Workbook

/-- The request as the handler sees it: its method, the error of
`r.ParseMultipartForm` (`none` is nil) and the outcome of `r.FormFile("file")`. -/
structure Request where
  method : String
  parseForm : Option String
  formFile : Except String FormFile

/-- The `switch ext` of `uploadHandler`: headers and rows, or the response
after the error was written. -/
def parseUpload (w : Response) (file : FormFile) :
    Except Response (List String × List (List String)) :=
  let ext := Ext file.fileName
  if ext = ".csv" then
    match file.csv with
    | .error err => .error (httpError w ("Ошибка чтения файла: " ++ err) 400)
    | .ok records =>
      match records with
      | hd :: r1 :: rest => .ok (hd, r1 :: rest)
      | _ => .error (httpError w "В таблице должен быть заголовок и хотя бы 1 запись" 400)
  else if ext = ".xlsx" then
    match readXLSX file.xlsx with
    | .error err => .error (httpError w ("Ошибка чтения файла: " ++ err) 400)
    | .ok hr => .ok hr
  else .error (httpError w "данный формат не поддерживается" 400)

/-- Source `uploadHandler`, started on a fresh response writer and a database
with no call of this request yet: the response and the calls executed.  `none`
is a panic. -/
def uploadHandler (parseFloatOk : String → Bool) (db : DB) (r : Request) :
    Option (Response × List Call) :=
  let w : Response := ⟨none, ""⟩
  if r.method ≠ "POST" then some (httpError w "нужен метод POST" 405, [])
  else
    match r.parseForm with
    | some err => some (httpError w ("ошибка парсинга формы: " ++ err) 400, [])
    | none =>
      match r.formFile with
      | .error err => some (httpError w ("не удаётся получить поля: " ++ err) 400, [])
      | .ok file =>
        let w := w.Write
          ("Получен файл: " ++ file.fileName ++ ", размер файла: " ++ fmtD file.size ++ " байт\n")
        let tableName := "uploaded_data"
        match parseUpload w file with
        | .error w1 => some (w1, [])
        | .ok (headers, rows) =>
          let colTypes := indentColumnTypes parseFloatOk headers rows
          match createTable db [] tableName headers colTypes with
          | none => none
          | some (log, some err) =>
            some (httpError w ("ошибка создания таблицы: " ++ err) 500, log)
          | some (log, none) =>
            match insertRows db log tableName headers rows with
            | none => none
            | some (log1, some err) =>
              some (httpError w ("ошибка вставки строк: " ++ err) 500, log1)
            | some (log1, none) =>
              let w := w.Write ("Колонки: " ++ fmtV headers ++ "\n")
              let w := w.Write ("Кол-во строк: " ++ fmtD rows.length ++ "\n")
              some (w, log1)

/-! ## Reference scan without the early exit -/

/-- Reference for the inner loop of `indentColumnTypes`, from the words "a scan
that inspects every row of every column without stopping at the first
non-numeric cell": the same loop with the `break` removed, so the flag is
carried through all rows. -/
def columnIsNumAllRows (parseFloatOk : String → Bool) (col : Nat)
    (rows : List (List String)) : Bool :=
  rows.foldl (fun isNum row =>
    match row[col]? with
    | none => isNum
    | some cell =>
      let val := TrimSpace cell
      if val = "" then isNum
      else if parseFloatOk val then isNum
      else false) true

/-- Reference for `indentColumnTypes` built on the scan without early exit. -/
def indentColumnTypesAllRows (parseFloatOk : String → Bool) (headers : List String)
    (rows : List (List String)) : List String :=
  (List.range headers.length).map fun col =>
    if columnIsNumAllRows parseFloatOk col rows then "NUMERIC" else "VARCHAR"

/-! ## Evaluation on small inputs -/

example : quoteIdent "a\"b" = "\"a\"\"b\"" := by decide
example : quoteIdent "plain" = "\"plain\"" := by decide
example : readQuotedIdent (quoteIdent "a\"b").data = some ("a\"b".data, []) := by decide
example : ReplaceAll "abcabc" "bc" "X" = "aXaX" := by decide
example : ReplaceAll "abc" "" "-" = "-a-b-c-" := by decide
example : TrimSpace "  a b \n" = "a b" := by decide

example : Ext "a/b.c/data.csv" = ".csv" := by decide
example : Ext "a/b.c/data" = "" := by decide
example : Ext "x.tar.gz" = ".gz" := by decide
example : rowArgs ["a", "b"] ["1", "2", "3"] = some [some "1", some "2"] := by decide
example : rowArgs ["a", "b"] ["1"] = some [] := by decide
example : insertStmt "t" ["x", "y"] = "INSERT INTO \"t\" (\"x\", \"y\") VALUES ($1, $2)" := by decide
example : createTable (fun _ _ => none) [] "t" ["x", "y"] ["NUMERIC", "VARCHAR"] =
    some ([⟨"CREATE TABLE IF NOT EXISTS \"t\" (\"x\" NUMERIC, \"y\" VARCHAR)", []⟩], none) := by
  decide
example : createTable (fun _ _ => none) [] "t" ["x", "y"] ["NUMERIC"] = none := by decide
example : (uploadHandler (fun _ => true) (fun _ _ => none)
    ⟨"POST", none, .ok ⟨"d.txt", 3, .ok [], .error ""⟩⟩).map (fun p => (p.1.status, p.2)) =
    some (some 200, []) := by decide

/-! ## Lemmas on the string library -/

theorem replaceFrom_quote (s : List Char) :
    replaceFrom ['"'] ['"', '"'] 0 s = doubleQuotes s := by
  induction s with
  | nil => rfl
  | cons c cs ih =>
    by_cases h : c = '"'
    · subst h
      simp [replaceFrom, doubleQuotes, List.isPrefixOf] at ih ⊢
      exact ih
    · have h2 : ¬ ('"' = c) := fun e => h e.symm
      simp [replaceFrom, doubleQuotes, List.isPrefixOf, h, h2] at ih ⊢
      exact ih

theorem quoteIdent_data (s : String) :
    (quoteIdent s).data = '"' :: (doubleQuotes s.data ++ ['"']) := by
  have h : ("\"" : String).data = ['"'] := rfl
  have h2 : ("\"\"" : String).data = ['"', '"'] := rfl
  simp [quoteIdent, ReplaceAll, h, h2, replaceFrom_quote]

theorem doubleQuotes_cons (c : Char) (cs : List Char) :
    doubleQuotes (c :: cs) = (if c = '"' then ['"', '"'] else [c]) ++ doubleQuotes cs := by
  simp [doubleQuotes]

theorem readIdentBody_doubleQuotes (s rest : List Char) (h : rest.head? ≠ some '"') :
    readIdentBody (doubleQuotes s ++ '"' :: rest) = some (s, rest) := by
  induction s with
  | nil =>
    cases rest with
    | nil => simp [doubleQuotes, readIdentBody]
    | cons d r =>
      have hd : ¬ d = '"' := by simpa using h
      simp [doubleQuotes, readIdentBody, hd]
  | cons c cs ih =>
    rw [doubleQuotes_cons]
    by_cases hc : c = '"'
    · subst hc
      simp [readIdentBody, ih]
    · obtain ⟨d, tl, hd⟩ : ∃ d tl, doubleQuotes cs ++ '"' :: rest = d :: tl := by
        cases hx : doubleQuotes cs ++ '"' :: rest with
        | nil => simp at hx
        | cons d tl => exact ⟨d, tl, rfl⟩
      rw [hd] at ih
      simp only [if_neg hc, List.singleton_append]
      rw [List.cons_append, hd]
      simp [readIdentBody, hc, ih]

theorem readQuotedIdent_quoteIdent_append (s : String) (rest : List Char)
    (h : rest.head? ≠ some '"') :
    readQuotedIdent ((quoteIdent s).data ++ rest) = some (s.data, rest) := by
  rw [quoteIdent_data]
  simp [readQuotedIdent, readIdentBody_doubleQuotes _ _ h]

theorem readQuotedIdent_quoteIdent (s : String) :
    readQuotedIdent (quoteIdent s).data = some (s.data, []) := by
  have h := readQuotedIdent_quoteIdent_append s [] (by simp)
  simpa using h

/-! ## Lemmas on `indentColumnTypes` -/

theorem columnIsNum_iff (p : String → Bool) (col : Nat) (rows : List (List String)) :
    columnIsNum p col rows = true ↔
      ∀ row ∈ rows, ∀ cell, row[col]? = some cell → TrimSpace cell ≠ "" →
        p (TrimSpace cell) = true := by
  induction rows with
  | nil => simp [columnIsNum]
  | cons row rest ih =>
    rw [List.forall_mem_cons]
    unfold columnIsNum
    cases hc : row[col]? with
    | none => simp [ih]
    | some cell =>
      by_cases hb : TrimSpace cell = ""
      · simp [hb, ih]
      · by_cases hp : p (TrimSpace cell) = true
        · simp [hb, hp, ih]
        · simp [hb, hp]

theorem indentColumnTypes_getElem? (p : String → Bool) (headers : List String)
    (rows : List (List String)) (c : Nat) (hc : c < headers.length) :
    (indentColumnTypes p headers rows)[c]? =
      some (if columnIsNum p c rows then "NUMERIC" else "VARCHAR") := by
  simp [indentColumnTypes, List.getElem?_range hc]

theorem indentColumnTypes_length (p : String → Bool) (headers : List String)
    (rows : List (List String)) :
    (indentColumnTypes p headers rows).length = headers.length := by
  simp [indentColumnTypes]

theorem rowArgsLoop_nil (row : List String) (n i : Nat) (h : row.length ≤ i) :
    rowArgsLoop row i n [] = some [] := by
  induction n generalizing i with
  | zero => rfl
  | succ n ih =>
    unfold rowArgsLoop
    rw [if_neg (by omega)]
    exact ih (i + 1) (by omega)

theorem rowArgsLoop_eq (row : List String) (n i : Nat) (h : i ≤ row.length) :
    rowArgsLoop row i n ((row.take i).map some ++ List.replicate n none) =
      some (if row.length < i + n then [] else (row.take (i + n)).map some) := by
  induction n generalizing i with
  | zero =>
    have : ¬ row.length < i := by omega
    simp [rowArgsLoop, this]
  | succ n ih =>
    unfold rowArgsLoop
    by_cases hi : i < row.length
    · have hlen : ((row.take i).map some).length = i := by simp; omega
      have hset : setIndex ((row.take i).map some ++ List.replicate (n + 1) none) i
          (some row[i]) = some ((row.take (i + 1)).map some ++ List.replicate n none) := by
        unfold setIndex
        rw [if_pos (by simp; omega)]
        congr 1
        have e : ((row.take i).map some ++ List.replicate (n + 1) none).set
            ((row.take i).map some).length (some row[i]) =
            (row.take i).map some ++ some row[i] :: List.replicate n none := by
          simp [List.replicate_succ]
        have ht : (row.take (i + 1)).map some = (row.take i).map some ++ [some row[i]] := by
          rw [List.take_succ, List.getElem?_eq_getElem hi, List.map_append]
          rfl
        rw [hlen] at e
        rw [e, ht]
        simp
      rw [if_pos hi, List.getElem?_eq_getElem hi]
      simp only [hset]
      rw [ih (i + 1) (by omega)]
      have : i + 1 + n = i + (n + 1) := by omega
      rw [this]
    · have hi2 : i = row.length := by omega
      rw [if_neg hi, if_pos (by omega)]
      exact rowArgsLoop_nil row n (i + 1) (by omega)

theorem rowArgs_eq (headers row : List String) :
    rowArgs headers row =
      some (if row.length < headers.length then [] else (row.take headers.length).map some) := by
  have h := rowArgsLoop_eq row headers.length 0 (Nat.zero_le _)
  simpa [rowArgs] using h

/-! ## Lemmas on `createTable` -/

theorem createTableCols_eq (types : List String) (hs : List String) (i : Nat)
    (h : i + hs.length ≤ types.length) :
    createTableCols types i hs =
      some (List.zipWith (fun h t => quoteIdent h ++ " " ++ (if t = "" then "VARCHAR" else t))
        hs (types.drop i)) := by
  induction hs generalizing i with
  | nil => simp [createTableCols]
  | cons x xs ih =>
    have hi : i < types.length := by simp at h; omega
    unfold createTableCols
    rw [List.getElem?_eq_getElem hi]
    simp only
    rw [ih (i + 1) (by simp at h; omega), List.drop_eq_getElem_cons hi]
    rfl

theorem createTableCols_panic (types : List String) (hs : List String) (i : Nat)
    (hle : i ≤ types.length) (h : types.length < i + hs.length) :
    createTableCols types i hs = none := by
  induction hs generalizing i with
  | nil => simp at h; omega
  | cons x xs ih =>
    unfold createTableCols
    cases hc : types[i]? with
    | none => rfl
    | some t =>
      have hi : i < types.length := by
        by_contra hn
        rw [List.getElem?_eq_none (by omega)] at hc
        exact Option.noConfusion hc
      simp only
      rw [ih (i + 1) (by omega) (by simp at h; omega)]

theorem zipWith_default_of_nonempty (hs types : List String) (h : ∀ t ∈ types, t ≠ "") :
    List.zipWith (fun h t => quoteIdent h ++ " " ++ (if t = "" then "VARCHAR" else t)) hs types =
      List.zipWith (fun h t => quoteIdent h ++ " " ++ t) hs types := by
  induction hs generalizing types with
  | nil => simp
  | cons x xs ih =>
    cases types with
    | nil => simp
    | cons t ts =>
      have ht : t ≠ "" := h t (by simp)
      simp only [List.zipWith_cons_cons, if_neg ht]
      rw [ih ts (fun u hu => h u (by simp [hu]))]

theorem createTable_eq (db : DB) (log : List Call) (tableName : String)
    (headers columnTypes : List String) (hne : headers ≠ [])
    (hlen : headers.length ≤ columnTypes.length) :
    createTable db log tableName headers columnTypes =
      some (log ++ [⟨"CREATE TABLE IF NOT EXISTS " ++ quoteIdent tableName ++ " (" ++
          Join (List.zipWith
            (fun h t => quoteIdent h ++ " " ++ (if t = "" then "VARCHAR" else t))
            headers columnTypes) ", " ++ ")", []⟩],
        (db log ⟨"CREATE TABLE IF NOT EXISTS " ++ quoteIdent tableName ++ " (" ++
          Join (List.zipWith
            (fun h t => quoteIdent h ++ " " ++ (if t = "" then "VARCHAR" else t))
            headers columnTypes) ", " ++ ")", []⟩).map
          (fun err => "ошибка создания таблицы: " ++ err)) := by
  have h0 : ¬ headers.length = 0 := by
    intro h
    exact hne (List.length_eq_zero.mp h)
  have hcols := createTableCols_eq columnTypes headers 0 (by omega)
  simp only [List.drop_zero] at hcols
  unfold createTable
  rw [if_neg h0, hcols]
  simp only [dbExec]
  cases hdb : db log ⟨"CREATE TABLE IF NOT EXISTS " ++ quoteIdent tableName ++ " (" ++
          Join (List.zipWith
            (fun h t => quoteIdent h ++ " " ++ (if t = "" then "VARCHAR" else t))
            headers columnTypes) ", " ++ ")", []⟩ with
  | none => rfl
  | some err => rfl

/-! ## Lemmas on `insertRows` -/

theorem execRows_ok (db : DB) (stmt : String) (headers : List String)
    (args : List String → List (Option String))
    (hargs : ∀ row, rowArgs headers row = some (args row))
    (rows : List (List String)) (log : List Call)
    (h : ∀ i d, (rows.map (fun row => Call.mk stmt (args row)))[i]? = some d →
      db (log ++ (rows.map (fun row => Call.mk stmt (args row))).take i) d = none) :
    execRows db stmt headers log rows =
      some (log ++ rows.map (fun row => Call.mk stmt (args row)), none) := by
  induction rows generalizing log with
  | nil => simp [execRows]
  | cons row rest ih =>
    have h0 := h 0 ⟨stmt, args row⟩ (by simp)
    simp only [List.take_zero, List.append_nil] at h0
    unfold execRows
    rw [hargs row]
    simp only [dbExec, h0]
    rw [ih (log ++ [Call.mk stmt (args row)])]
    · simp
    · intro i d hd
      have := h (i + 1) d (by simpa using hd)
      simpa using this

theorem execRows_fail (db : DB) (stmt : String) (headers : List String)
    (args : List String → List (Option String))
    (hargs : ∀ row, rowArgs headers row = some (args row))
    (rows : List (List String)) (log : List Call) (k : Nat) (c : Call) (e : String)
    (hk : (rows.map (fun row => Call.mk stmt (args row)))[k]? = some c)
    (h : ∀ i d, i < k → (rows.map (fun row => Call.mk stmt (args row)))[i]? = some d →
      db (log ++ (rows.map (fun row => Call.mk stmt (args row))).take i) d = none)
    (hfail : db (log ++ (rows.map (fun row => Call.mk stmt (args row))).take k) c = some e) :
    execRows db stmt headers log rows =
      some (log ++ (rows.map (fun row => Call.mk stmt (args row))).take (k + 1),
        some ("ршибка вставки: " ++ e)) := by
  induction rows generalizing log k with
  | nil => simp at hk
  | cons row rest ih =>
    unfold execRows
    rw [hargs row]
    cases k with
    | zero =>
      simp only [List.map_cons, List.getElem?_cons_zero, Option.some.injEq] at hk
      subst hk
      simp only [List.take_zero, List.append_nil] at hfail
      simp [dbExec, hfail]
    | succ k =>
      have h0 := h 0 ⟨stmt, args row⟩ (by omega) (by simp)
      simp only [List.take_zero, List.append_nil] at h0
      simp only [dbExec, h0]
      rw [ih (log ++ [Call.mk stmt (args row)]) k (by simpa using hk)]
      · simp
      · intro i d hi hd
        have := h (i + 1) d (by omega) (by simpa using hd)
        simpa using this
      · simpa using hfail

theorem execRows_queries (db : DB) (stmt : String) (headers : List String)
    (rows : List (List String)) (log : List Call) :
    ∃ calls err, execRows db stmt headers log rows = some (log ++ calls, err) ∧
      (∀ c ∈ calls, c.query = stmt) ∧ (rows ≠ [] → calls ≠ []) := by
  induction rows generalizing log with
  | nil => exact ⟨[], none, by simp [execRows], by simp, by simp⟩
  | cons row rest ih =>
    unfold execRows
    rw [rowArgs_eq]
    simp only [dbExec]
    cases hdb : db log ⟨stmt, if row.length < headers.length then []
        else (row.take headers.length).map some⟩ with
    | some err =>
      exact ⟨[Call.mk stmt (if row.length < headers.length then []
        else (row.take headers.length).map some)], some ("ршибка вставки: " ++ err),
        by simp, by simp, by simp⟩
    | none =>
      obtain ⟨calls, err, h1, h2, _⟩ := ih (log ++ [Call.mk stmt
        (if row.length < headers.length then [] else (row.take headers.length).map some)])
      refine ⟨Call.mk stmt (if row.length < headers.length then []
        else (row.take headers.length).map some) :: calls, err, ?_, ?_, by simp⟩
      · simp only [h1]
        simp
      · intro c hc
        rcases List.mem_cons.mp hc with rfl | hc
        · rfl
        · exact h2 c hc

theorem insertRows_cons (db : DB) (log : List Call) (tableName : String)
    (headers row : List String) (rest : List (List String)) :
    insertRows db log tableName headers (row :: rest) =
      execRows db (insertStmt tableName headers) headers log (row :: rest) := by
  unfold insertRows
  rw [if_neg (by simp)]

theorem placeHolders_eq (n : Nat) :
    (List.range n).map (fun i => "$" ++ fmtD (i + 1)) =
      (List.range' 1 n).map (fun k => "$" ++ Nat.repr k) := by
  rw [List.range'_eq_map_range, List.map_map]
  apply List.map_congr_left
  intro i _
  simp [fmtD, Nat.add_comm]

/-! ## Lemmas on the scan without early exit, and on the handler once the file is received -/

theorem columnIsNumAllRows_foldl (p : String → Bool) (col : Nat) (rows : List (List String))
    (b : Bool) :
    rows.foldl (fun isNum row =>
      match row[col]? with
      | none => isNum
      | some cell =>
        let val := TrimSpace cell
        if val = "" then isNum
        else if p val then isNum
        else false) b = (b && columnIsNum p col rows) := by
  induction rows generalizing b with
  | nil => simp [columnIsNum]
  | cons row rest ih =>
    rw [List.foldl_cons, ih]
    cases hc : row[col]? with
    | none => simp [columnIsNum, hc]
    | some cell =>
      by_cases hb : TrimSpace cell = ""
      · simp [columnIsNum, hc, hb]
      · by_cases hp : p (TrimSpace cell) = true
        · simp [columnIsNum, hc, hb, hp]
        · simp [columnIsNum, hc, hb, hp]

theorem columnIsNum_perm (p : String → Bool) (col : Nat) (rows rows2 : List (List String))
    (h : rows.Perm rows2) : columnIsNum p col rows = columnIsNum p col rows2 := by
  have h1 := columnIsNum_iff p col rows
  have h2 := columnIsNum_iff p col rows2
  have h3 : columnIsNum p col rows = true ↔ columnIsNum p col rows2 = true := by
    rw [h1, h2]
    constructor
    · intro hall row hrow
      exact hall row (h.mem_iff.mpr hrow)
    · intro hall row hrow
      exact hall row (h.mem_iff.mp hrow)
  cases ha : columnIsNum p col rows with
  | true => exact (h3.mp ha).symm
  | false =>
    cases hb : columnIsNum p col rows2 with
    | false => rfl
    | true =>
      rw [h3.mpr hb] at ha
      exact Bool.noConfusion ha

theorem createTable_total (p : String → Bool) (db : DB) (log : List Call) (tableName : String)
    (headers : List String) (rows : List (List String)) :
    ∃ res, createTable db log tableName headers (indentColumnTypes p headers rows) =
      some res := by
  by_cases hne : headers = []
  · subst hne
    exact ⟨(log, some "нет колонок"), by simp [createTable]⟩
  · exact ⟨_, createTable_eq db log tableName headers _ hne
      (by rw [indentColumnTypes_length])⟩

theorem insertRows_total (db : DB) (log : List Call) (tableName : String)
    (headers : List String) (rows : List (List String)) :
    ∃ res, insertRows db log tableName headers rows = some res := by
  cases rows with
  | nil => exact ⟨(log, none), by simp [insertRows]⟩
  | cons row rest =>
    obtain ⟨calls, err, h, _⟩ :=
      execRows_queries db (insertStmt tableName headers) headers (row :: rest) log
    exact ⟨_, by rw [insertRows_cons, h]⟩

theorem httpError_after_write (b msg : String) (code : Nat) :
    httpError ⟨some 200, b⟩ msg code = ⟨some 200, b ++ (msg ++ "\n")⟩ := by
  simp [httpError, Response.Write, Response.WriteHeader]

theorem parseUpload_error (b : String) (file : FormFile) (w1 : Response)
    (h : parseUpload ⟨some 200, b⟩ file = .error w1) :
    ∃ msg, w1 = ⟨some 200, b ++ (msg ++ "\n")⟩ := by
  unfold parseUpload at h
  simp only at h
  split at h
  · split at h
    · injection h with h
      exact ⟨_, by rw [← h, httpError_after_write]⟩
    · split at h
      · exact Except.noConfusion h
      · injection h with h
        exact ⟨_, by rw [← h, httpError_after_write]⟩
  · split at h
    · split at h
      · injection h with h
        exact ⟨_, by rw [← h, httpError_after_write]⟩
      · exact Except.noConfusion h
    · injection h with h
      exact ⟨_, by rw [← h, httpError_after_write]⟩


/-! ## Claims -/

/-- C1: `indentColumnTypes` returns one entry per header, and the entry of
column `c` is `NUMERIC` exactly when every row with a cell at `c` that is not
blank after trimming has the trimmed cell parse as a float; otherwise it is
`VARCHAR`, so one non-numeric non-blank cell anywhere makes the column
`VARCHAR`. -/
theorem indentColumnTypes_spec (p : String → Bool) (headers : List String)
    (rows : List (List String)) (c : Nat) (hc : c < headers.length) :
    (indentColumnTypes p headers rows).length = headers.length ∧
    ((indentColumnTypes p headers rows)[c]? = some "NUMERIC" ↔
      ∀ row ∈ rows, ∀ cell, row[c]? = some cell → TrimSpace cell ≠ "" →
        p (TrimSpace cell) = true) ∧
    ((¬ ∀ row ∈ rows, ∀ cell, row[c]? = some cell → TrimSpace cell ≠ "" →
        p (TrimSpace cell) = true) →
      (indentColumnTypes p headers rows)[c]? = some "VARCHAR") ∧
    (∀ row ∈ rows, ∀ cell, row[c]? = some cell → TrimSpace cell ≠ "" →
      p (TrimSpace cell) = false → (indentColumnTypes p headers rows)[c]? = some "VARCHAR") := by
  have hget := indentColumnTypes_getElem? p headers rows c hc
  have hiff := columnIsNum_iff p c rows
  have hvar : (¬ ∀ row ∈ rows, ∀ cell, row[c]? = some cell → TrimSpace cell ≠ "" →
      p (TrimSpace cell) = true) →
      (indentColumnTypes p headers rows)[c]? = some "VARCHAR" := by
    intro hn
    have hf : columnIsNum p c rows = false := by
      cases hv : columnIsNum p c rows with
      | false => rfl
      | true => exact absurd (hiff.mp hv) hn
    rw [hget, hf]
    rfl
  refine ⟨indentColumnTypes_length p headers rows, ?_, hvar, ?_⟩
  · rw [hget, ← hiff]
    cases hv : columnIsNum p c rows with
    | false => simp
    | true => simp
  · intro row hrow cell hcell hblank hp
    apply hvar
    intro hall
    have := hall row hrow cell hcell hblank
    rw [hp] at this
    exact Bool.noConfusion this

/-- C1 (witness): two headers, a ragged row list; column 1 holds the
non-numeric cell `x` and is `VARCHAR`. -/
theorem indentColumnTypes_spec_witness :
    1 < ["a", "b"].length ∧
    (indentColumnTypes (fun s => s == "1") ["a", "b"] [[" 1 ", "x"], ["1"]]).length = 2 ∧
    (indentColumnTypes (fun s => s == "1") ["a", "b"] [[" 1 ", "x"], ["1"]])[1]? =
      some "VARCHAR" :=
  ⟨by decide,
    (indentColumnTypes_spec (fun s => s == "1") ["a", "b"] [[" 1 ", "x"], ["1"]] 1
      (by decide)).1,
    (indentColumnTypes_spec (fun s => s == "1") ["a", "b"] [[" 1 ", "x"], ["1"]] 1
      (by decide)).2.2.2 [" 1 ", "x"] (by simp) "x" (by decide) (by decide) (by decide)⟩


/-- C2: `quoteIdent s` is a double quote, then `s` with every double quote
replaced by two double quotes, then a double quote; `a"b` gives `"a""b"` and
`plain` gives `"plain"`. -/
theorem quoteIdent_spec (s : String) :
    quoteIdent s = "\"" ++ String.mk (doubleQuotes s.data) ++ "\"" ∧
    quoteIdent "a\"b" = "\"a\"\"b\"" ∧ quoteIdent "plain" = "\"plain\"" := by
  refine ⟨?_, by decide, by decide⟩
  apply String.ext
  rw [quoteIdent_data]
  have h : ("\"" : String).data = ['"'] := rfl
  simp [h]

/-- C3: reading `quoteIdent s` as a SQL quoted identifier consumes all of it,
leaves nothing over and yields exactly `s`; followed by any text that does not
begin with a double quote, the reader stops exactly at the end of
`quoteIdent s`, so no input closes the identifier early; and `quoteIdent` is
injective. -/
theorem quoteIdent_injection_safe :
    (∀ s : String, readQuotedIdent (quoteIdent s).data = some (s.data, [])) ∧
    (∀ (s : String) (rest : List Char), rest.head? ≠ some '"' →
      readQuotedIdent ((quoteIdent s).data ++ rest) = some (s.data, rest)) ∧
    Function.Injective quoteIdent := by
  refine ⟨readQuotedIdent_quoteIdent, readQuotedIdent_quoteIdent_append, ?_⟩
  intro a b hab
  have ha := readQuotedIdent_quoteIdent a
  rw [hab, readQuotedIdent_quoteIdent b] at ha
  apply String.ext
  simpa using ha.symm

/-- C3 (witness): the hostile name `x" ; DROP TABLE t; --` followed by the
text ` (` is read back whole, with ` (` left over. -/
theorem quoteIdent_injection_safe_witness :
    readQuotedIdent ((quoteIdent "x\" ; DROP TABLE t; --").data ++ " (".data) =
      some ("x\" ; DROP TABLE t; --".data, " (".data) :=
  quoteIdent_injection_safe.2.1 "x\" ; DROP TABLE t; --" " (".data (by decide)

/-- C4: for a non-empty header list and a type list of the same length with
non-empty entries, `createTable` issues exactly one statement, whose text is
`CREATE TABLE IF NOT EXISTS ` + quoted table + ` (` + the entries quoted header,
blank, type joined by `, ` in header order + `)`; for table `t`, headers
`x, y` and types `NUMERIC, VARCHAR` it is
`CREATE TABLE IF NOT EXISTS "t" ("x" NUMERIC, "y" VARCHAR)`. -/
theorem createTable_stmt (db : DB) (log : List Call) (tableName : String)
    (headers columnTypes : List String) (hne : headers ≠ [])
    (hlen : columnTypes.length = headers.length) (hty : ∀ t ∈ columnTypes, t ≠ "") :
    (∃ err, createTable db log tableName headers columnTypes =
      some (log ++ [⟨"CREATE TABLE IF NOT EXISTS " ++ quoteIdent tableName ++ " (" ++
        Join (List.zipWith (fun h t => quoteIdent h ++ " " ++ t) headers columnTypes) ", " ++
        ")", []⟩], err)) ∧
    (∃ err, createTable db log "t" ["x", "y"] ["NUMERIC", "VARCHAR"] =
      some (log ++ [⟨"CREATE TABLE IF NOT EXISTS \"t\" (\"x\" NUMERIC, \"y\" VARCHAR)", []⟩],
        err)) := by
  constructor
  · rw [createTable_eq db log tableName headers columnTypes hne (by omega),
      zipWith_default_of_nonempty headers columnTypes hty]
    exact ⟨_, rfl⟩
  · rw [createTable_eq db log "t" ["x", "y"] ["NUMERIC", "VARCHAR"] (by simp) (by simp)]
    exact ⟨_, rfl⟩

/-- C4 (witness): table `t`, headers `x, y`, types `NUMERIC, VARCHAR`, on a
database whose calls succeed. -/
theorem createTable_stmt_witness :
    ["x", "y"] ≠ [] ∧ ["NUMERIC", "VARCHAR"].length = ["x", "y"].length ∧
    (∀ t ∈ ["NUMERIC", "VARCHAR"], t ≠ "") ∧
    ∃ err, createTable (fun _ _ => none) [] "t" ["x", "y"] ["NUMERIC", "VARCHAR"] =
      some ([] ++ [⟨"CREATE TABLE IF NOT EXISTS \"t\" (\"x\" NUMERIC, \"y\" VARCHAR)", []⟩],
        err) :=
  ⟨by decide, by decide, by decide,
    (createTable_stmt (fun _ _ => none) [] "t" ["x", "y"] ["NUMERIC", "VARCHAR"] (by decide)
      (by decide) (by decide)).2⟩

/-- C5: the argument list `insertRows` builds for a row is empty when the row
has fewer cells than there are headers, and otherwise the row's first
`len(headers)` cells in order; the loop never indexes out of range (the result
is never a panic). -/
theorem rowArgs_spec (headers row : List String) :
    (row.length < headers.length → rowArgs headers row = some []) ∧
    (headers.length ≤ row.length →
      rowArgs headers row = some ((row.take headers.length).map some)) ∧
    (∃ args, rowArgs headers row = some args) := by
  rw [rowArgs_eq]
  refine ⟨fun h => by rw [if_pos h], fun h => by rw [if_neg (by omega)], _, rfl⟩

/-- C5 (witness): two headers; a row missing its last cell binds nothing, a
row of three cells binds its first two. -/
theorem rowArgs_spec_witness :
    rowArgs ["a", "b"] ["1"] = some [] ∧
    rowArgs ["a", "b"] ["1", "2", "3"] = some [some "1", some "2"] :=
  ⟨(rowArgs_spec ["a", "b"] ["1"]).1 (by decide),
    (rowArgs_spec ["a", "b"] ["1", "2", "3"]).2.1 (by decide)⟩

/-- C6: with a non-empty row list, `insertRows` executes at least one
statement and every statement it executes has the text `INSERT INTO ` + quoted
table + ` (` + quoted headers joined by `, ` + `) VALUES (` + `$1, ..., $n` +
`)`, one placeholder per header numbered from 1. -/
theorem insertRows_stmt (db : DB) (log : List Call) (tableName : String)
    (headers : List String) (rows : List (List String)) (hrows : rows ≠ []) :
    ∃ calls err, insertRows db log tableName headers rows = some (log ++ calls, err) ∧
      calls ≠ [] ∧
      ∀ c ∈ calls, c.query =
        "INSERT INTO " ++ quoteIdent tableName ++ " (" ++ Join (headers.map quoteIdent) ", " ++
          ") VALUES (" ++
          Join ((List.range' 1 headers.length).map (fun k => "$" ++ Nat.repr k)) ", " ++ ")" := by
  have h0 : ¬ rows.length = 0 := fun h => hrows (List.length_eq_zero.mp h)
  obtain ⟨calls, err, h1, h2, h3⟩ :=
    execRows_queries db (insertStmt tableName headers) headers rows log
  refine ⟨calls, err, ?_, h3 hrows, ?_⟩
  · unfold insertRows
    rw [if_neg h0, h1]
  · intro c hc
    rw [h2 c hc]
    simp only [insertStmt, placeHolders_eq]

/-- C6 (witness): table `t`, headers `x, y`, two rows. -/
theorem insertRows_stmt_witness :
    [["1", "2"], ["3", "4"]] ≠ ([] : List (List String)) ∧
    ∃ calls err, insertRows (fun _ _ => none) [] "t" ["x", "y"] [["1", "2"], ["3", "4"]] =
        some ([] ++ calls, err) ∧
      calls ≠ [] ∧
      ∀ c ∈ calls, c.query =
        "INSERT INTO " ++ quoteIdent "t" ++ " (" ++ Join (["x", "y"].map quoteIdent) ", " ++
          ") VALUES (" ++
          Join ((List.range' 1 ["x", "y"].length).map (fun k => "$" ++ Nat.repr k)) ", " ++ ")" :=
  ⟨by decide,
    insertRows_stmt (fun _ _ => none) [] "t" ["x", "y"] [["1", "2"], ["3", "4"]] (by decide)⟩


/-- C7: `insertRows` executes one statement per row, in row order, and stops
at the first failure.  With `calls` the list of one call per row: if the call
of row `k` (counting from 0) fails with `e` after the calls before it
succeeded, exactly the calls of rows `0..k` were executed and an error is
returned; if no call fails, exactly `calls` were executed and the result is
success; with no rows nothing is executed and the result is success. -/
theorem insertRows_per_row (db : DB) (log : List Call) (tableName : String)
    (headers : List String) (rows : List (List String)) (calls : List Call)
    (hcalls : calls = rows.map (fun row => Call.mk (insertStmt tableName headers)
      (if row.length < headers.length then [] else (row.take headers.length).map some))) :
    (∀ k c e, calls[k]? = some c →
      (∀ i d, i < k → calls[i]? = some d → db (log ++ calls.take i) d = none) →
      db (log ++ calls.take k) c = some e →
      insertRows db log tableName headers rows =
        some (log ++ calls.take (k + 1), some ("ршибка вставки: " ++ e))) ∧
    ((∀ i d, calls[i]? = some d → db (log ++ calls.take i) d = none) →
      insertRows db log tableName headers rows = some (log ++ calls, none)) ∧
    insertRows db log tableName headers [] = some (log, none) := by
  subst hcalls
  refine ⟨?_, ?_, by simp [insertRows]⟩
  · intro k c e hk hbefore hfail
    have h0 : ¬ rows.length = 0 := by
      intro h
      rw [List.length_eq_zero.mp h] at hk
      simp at hk
    unfold insertRows
    rw [if_neg h0]
    exact execRows_fail db _ headers _ (rowArgs_eq headers) rows log k c e hk hbefore hfail
  · intro hall
    unfold insertRows
    by_cases h0 : rows.length = 0
    · rw [if_pos h0, List.length_eq_zero.mp h0]
      simp
    · rw [if_neg h0]
      exact execRows_ok db _ headers _ (rowArgs_eq headers) rows log hall

/-- C7 (witness): three rows on a database that fails once one call has been
executed: the first row is inserted, the second fails, the third is never
tried. -/
theorem insertRows_per_row_witness :
    insertRows (fun log _ => if log.length = 1 then some "boom" else none) [] "t" ["x"]
        [["1"], ["2"], ["3"]] =
      some ([⟨insertStmt "t" ["x"], [some "1"]⟩, ⟨insertStmt "t" ["x"], [some "2"]⟩],
        some ("ршибка вставки: " ++ "boom")) :=
  (insertRows_per_row (fun log _ => if log.length = 1 then some "boom" else none) [] "t" ["x"]
    [["1"], ["2"], ["3"]]
    [⟨insertStmt "t" ["x"], [some "1"]⟩, ⟨insertStmt "t" ["x"], [some "2"]⟩,
      ⟨insertStmt "t" ["x"], [some "3"]⟩] (by decide)).1 1
    ⟨insertStmt "t" ["x"], [some "2"]⟩ "boom" (by decide)
    (by
      intro i d hi hd
      have hi0 : i = 0 := by omega
      subst hi0
      rfl)
    (by decide)

/-- C8 (counterexample): header `x` with an empty type sequence.  The type at
header position 0 is missing, and `createTable` does not render `VARCHAR` for
it: it panics on `columnTypes[0]` and issues no statement. -/
theorem createTable_missing_type_panics :
    ([] : List String)[0]? = none ∧
    createTable (fun _ _ => none) [] "t" ["x"] [] = none := by
  decide

/-- C8 (amended): when the type sequence has an entry at every header
position, `createTable` issues one statement in which every column whose entry
is the empty string is rendered with type `VARCHAR`; when an entry is missing
(the type sequence is shorter than the header list) it panics and issues no
statement. -/
theorem createTable_default_type (db : DB) (log : List Call) (tableName : String)
    (headers columnTypes : List String) (hne : headers ≠ []) :
    (headers.length ≤ columnTypes.length →
      ∃ cols err, createTable db log tableName headers columnTypes =
          some (log ++ [⟨"CREATE TABLE IF NOT EXISTS " ++ quoteIdent tableName ++ " (" ++
            Join cols ", " ++ ")", []⟩], err) ∧
        cols.length = headers.length ∧
        ∀ (i : Nat) (h : String), headers[i]? = some h → columnTypes[i]? = some "" →
          cols[i]? = some (quoteIdent h ++ " " ++ "VARCHAR")) ∧
    (columnTypes.length < headers.length →
      createTable db log tableName headers columnTypes = none) := by
  constructor
  · intro hlen
    refine ⟨_, _, createTable_eq db log tableName headers columnTypes hne hlen, ?_, ?_⟩
    · simp [List.length_zipWith]
      omega
    · intro i h hh ht
      simp [List.getElem?_zipWith, hh, ht]
  · intro hlt
    have h0 : ¬ headers.length = 0 := fun h => hne (List.length_eq_zero.mp h)
    unfold createTable
    rw [if_neg h0, createTableCols_panic columnTypes headers 0 (by omega) (by omega)]

/-- C8 (witness): headers `x, y` with types unset and `NUMERIC`. -/
theorem createTable_default_type_witness :
    ["x", "y"] ≠ [] ∧
    ∃ cols err, createTable (fun _ _ => none) [] "t" ["x", "y"] ["", "NUMERIC"] =
        some ([] ++ [⟨"CREATE TABLE IF NOT EXISTS " ++ quoteIdent "t" ++ " (" ++
          Join cols ", " ++ ")", []⟩], err) ∧
      cols.length = ["x", "y"].length ∧
      ∀ (i : Nat) (h : String), ["x", "y"][i]? = some h → ["", "NUMERIC"][i]? = some "" →
        cols[i]? = some (quoteIdent h ++ " " ++ "VARCHAR") :=
  ⟨by decide,
    (createTable_default_type (fun _ _ => none) [] "t" ["x", "y"] ["", "NUMERIC"]
      (by decide)).1 (by decide)⟩


/-- C9 (what the code does): an upload whose extension is neither `.csv` nor
`.xlsx` makes no database call and the message of the unsupported format is
written, but the status is 200, not 4xx: the line reporting the received file
was written before the extension is looked at and committed the status, so
the `WriteHeader(400)` of `http.Error` is ignored. -/
theorem uploadHandler_unsupported_ext (p : String → Bool) (db : DB) (r : Request)
    (file : FormFile) (hm : r.method = "POST") (hp : r.parseForm = none)
    (hf : r.formFile = .ok file) (h1 : Ext file.fileName ≠ ".csv")
    (h2 : Ext file.fileName ≠ ".xlsx") :
    uploadHandler p db r =
      some (⟨some 200,
        "Получен файл: " ++ file.fileName ++ ", размер файла: " ++ fmtD file.size ++ " байт\n" ++
          ("данный формат не поддерживается" ++ "\n")⟩, []) := by
  simp [uploadHandler, hm, hp, hf, parseUpload, h1, h2, httpError, Response.Write,
    Response.WriteHeader]

/-- C9 (evaluation at the failing input): `data.txt` of 3 bytes. -/
theorem uploadHandler_unsupported_ext_witness :
    uploadHandler (fun _ => true) (fun _ _ => none)
        ⟨"POST", none, .ok ⟨"data.txt", 3, .error "", .error ""⟩⟩ =
      some (⟨some 200,
        "Получен файл: data.txt, размер файла: 3 байт\nданный формат не поддерживается\n"⟩, []) :=
  uploadHandler_unsupported_ext (fun _ => true) (fun _ _ => none)
    ⟨"POST", none, .ok ⟨"data.txt", 3, .error "", .error ""⟩⟩
    ⟨"data.txt", 3, .error "", .error ""⟩ rfl rfl rfl (by decide) (by decide)


/-- C11 (what the code does): a `.csv` upload that parses to fewer than two
records issues neither the `CREATE TABLE` nor any `INSERT` and writes the
message asking for a header and one record, but the status is 200, not 4xx:
the line reporting the received file was written first and committed the
status, so the `WriteHeader(400)` of `http.Error` is ignored. -/
theorem uploadHandler_csv_too_short (p : String → Bool) (db : DB) (r : Request)
    (file : FormFile) (records : List (List String))
    (hm : r.method = "POST") (hp : r.parseForm = none) (hf : r.formFile = .ok file)
    (hext : Ext file.fileName = ".csv") (hcsv : file.csv = .ok records)
    (hlen : records.length < 2) :
    uploadHandler p db r =
      some (⟨some 200,
        "Получен файл: " ++ file.fileName ++ ", размер файла: " ++ fmtD file.size ++ " байт\n" ++
          ("В таблице должен быть заголовок и хотя бы 1 запись" ++ "\n")⟩, []) := by
  match records, hlen with
  | [], _ =>
    simp [uploadHandler, hm, hp, hf, parseUpload, hext, hcsv, httpError, Response.Write,
      Response.WriteHeader]
  | [_], _ =>
    simp [uploadHandler, hm, hp, hf, parseUpload, hext, hcsv, httpError, Response.Write,
      Response.WriteHeader]
  | _ :: _ :: _, h => exact absurd h (by simp)

/-- C11 (evaluation at the failing input): `d.csv` holding only the header
record `a;b`. -/
theorem uploadHandler_csv_too_short_witness :
    uploadHandler (fun _ => true) (fun _ _ => none)
        ⟨"POST", none, .ok ⟨"d.csv", 4, .ok [["a", "b"]], .error ""⟩⟩ =
      some (⟨some 200,
        "Получен файл: d.csv, размер файла: 4 байт\nВ таблице должен быть заголовок и хотя бы 1 запись\n"⟩,
        []) :=
  uploadHandler_csv_too_short (fun _ => true) (fun _ _ => none)
    ⟨"POST", none, .ok ⟨"d.csv", 4, .ok [["a", "b"]], .error ""⟩⟩
    ⟨"d.csv", 4, .ok [["a", "b"]], .error ""⟩ [["a", "b"]] rfl rfl rfl (by decide) rfl
    (by decide)

/-- C12: a column in which every row's cell is absent or empty after trimming
is classified `NUMERIC`; with no rows every column is `NUMERIC`. -/
theorem indentColumnTypes_blank_column (p : String → Bool) (headers : List String)
    (rows : List (List String)) (c : Nat) (hc : c < headers.length)
    (hblank : ∀ row ∈ rows, ∀ cell, row[c]? = some cell → TrimSpace cell = "") :
    (indentColumnTypes p headers rows)[c]? = some "NUMERIC" ∧
    indentColumnTypes p headers [] = List.replicate headers.length "NUMERIC" := by
  constructor
  · have hnum : columnIsNum p c rows = true := by
      rw [columnIsNum_iff]
      intro row hrow cell hcell hne
      exact absurd (hblank row hrow cell hcell) hne
    rw [indentColumnTypes_getElem? p headers rows c hc, hnum]
    rfl
  · simp [indentColumnTypes, columnIsNum]

/-- C12 (witness): column 1 has a blank cell in the first row and no cell in
the second. -/
theorem indentColumnTypes_blank_column_witness :
    (indentColumnTypes (fun _ => false) ["a", "b"] [["x", " \t"], ["y"]])[1]? =
      some "NUMERIC" :=
  (indentColumnTypes_blank_column (fun _ => false) ["a", "b"] [["x", " \t"], ["y"]] 1
    (by decide) (by decide)).1

/-- C13: `createTable` with an empty header list returns the "no columns"
error and issues no statement, for every table name and type list. -/
theorem createTable_no_columns (db : DB) (log : List Call) (tableName : String)
    (columnTypes : List String) :
    createTable db log tableName [] columnTypes = some (log, some "нет колонок") := by
  simp [createTable]


/-- C14 (what the code does): for an upload that passes parsing, when the
`CREATE TABLE` statement fails, or an `INSERT` fails, the error message is
written but the status of the response is 200, not 5xx: the line reporting the
received file was written first and committed the status, so the
`WriteHeader(500)` of `http.Error` is ignored. -/
theorem uploadHandler_db_failure (p : String → Bool) (db : DB) (r : Request)
    (file : FormFile) (headers : List String) (rows : List (List String))
    (hm : r.method = "POST") (hp : r.parseForm = none) (hf : r.formFile = .ok file)
    (hparse : parseUpload
      ⟨some 200, "Получен файл: " ++ file.fileName ++ ", размер файла: " ++ fmtD file.size ++
        " байт\n"⟩ file = .ok (headers, rows)) :
    (∀ log err,
      createTable db [] "uploaded_data" headers (indentColumnTypes p headers rows) =
        some (log, some err) →
      uploadHandler p db r =
        some (⟨some 200,
          "Получен файл: " ++ file.fileName ++ ", размер файла: " ++ fmtD file.size ++
            " байт\n" ++ ("ошибка создания таблицы: " ++ err ++ "\n")⟩, log)) ∧
    (∀ log log1 err,
      createTable db [] "uploaded_data" headers (indentColumnTypes p headers rows) =
        some (log, none) →
      insertRows db log "uploaded_data" headers rows = some (log1, some err) →
      uploadHandler p db r =
        some (⟨some 200,
          "Получен файл: " ++ file.fileName ++ ", размер файла: " ++ fmtD file.size ++
            " байт\n" ++ ("ошибка вставки строк: " ++ err ++ "\n")⟩, log1)) := by
  have hw : (⟨none, ""⟩ : Response).Write
      ("Получен файл: " ++ file.fileName ++ ", размер файла: " ++ fmtD file.size ++ " байт\n") =
      ⟨some 200, "Получен файл: " ++ file.fileName ++ ", размер файла: " ++ fmtD file.size ++
        " байт\n"⟩ := by
    simp [Response.Write, Response.WriteHeader]
  constructor
  · intro log err hct
    simp only [uploadHandler, hm, hp, hf, hw, hparse, hct, httpError_after_write, ne_eq,
      not_true_eq_false, if_false]
  · intro log log1 err hct hir
    simp only [uploadHandler, hm, hp, hf, hw, hparse, hct, hir, httpError_after_write, ne_eq,
      not_true_eq_false, if_false]

/-- C14 (evaluation at the failing input): `d.csv` with header `a;b` and row
`1;2` on a database that rejects every statement. -/
theorem uploadHandler_db_failure_witness :
    uploadHandler (fun _ => true) (fun _ _ => some "boom")
        ⟨"POST", none, .ok ⟨"d.csv", 8, .ok [["a", "b"], ["1", "2"]], .error ""⟩⟩ =
      some (⟨some 200,
        "Получен файл: d.csv, размер файла: 8 байт\nошибка создания таблицы: ошибка создания таблицы: boom\n"⟩,
        [⟨"CREATE TABLE IF NOT EXISTS \"uploaded_data\" (\"a\" NUMERIC, \"b\" NUMERIC)", []⟩]) :=
  (uploadHandler_db_failure (fun _ => true) (fun _ _ => some "boom")
    ⟨"POST", none, .ok ⟨"d.csv", 8, .ok [["a", "b"], ["1", "2"]], .error ""⟩⟩
    ⟨"d.csv", 8, .ok [["a", "b"], ["1", "2"]], .error ""⟩ ["a", "b"] [["1", "2"]]
    rfl rfl rfl rfl).1
    [⟨"CREATE TABLE IF NOT EXISTS \"uploaded_data\" (\"a\" NUMERIC, \"b\" NUMERIC)", []⟩]
    "ошибка создания таблицы: boom" (by decide)


/-- C15 (what the code does): the three errors raised before the file is
obtained (wrong method, bad form, missing file field) answer with a body of one
line, the error message.  Once the file is obtained, every response, the error
responses included, has status 200 and a body that begins with the line
reporting the received file and continues with further text ending in a
newline: an error body there is two lines, not the error message alone. -/
theorem uploadHandler_error_body (p : String → Bool) (db : DB) (r : Request) :
    (r.method ≠ "POST" →
      uploadHandler p db r = some (⟨some 405, "нужен метод POST" ++ "\n"⟩, [])) ∧
    (∀ e, r.method = "POST" → r.parseForm = some e →
      uploadHandler p db r = some (⟨some 400, "ошибка парсинга формы: " ++ e ++ "\n"⟩, [])) ∧
    (∀ e, r.method = "POST" → r.parseForm = none → r.formFile = .error e →
      uploadHandler p db r = some (⟨some 400, "не удаётся получить поля: " ++ e ++ "\n"⟩, [])) ∧
    (∀ file, r.method = "POST" → r.parseForm = none → r.formFile = .ok file →
      ∃ log more, uploadHandler p db r =
        some (⟨some 200,
          "Получен файл: " ++ file.fileName ++ ", размер файла: " ++ fmtD file.size ++
            " байт\n" ++ (more ++ "\n")⟩, log)) := by
  refine ⟨?_, ?_, ?_, ?_⟩
  · intro hm
    simp [uploadHandler, hm, httpError, Response.Write, Response.WriteHeader]
  · intro e hm hp
    simp [uploadHandler, hm, hp, httpError, Response.Write, Response.WriteHeader]
  · intro e hm hp hf
    simp [uploadHandler, hm, hp, hf, httpError, Response.Write, Response.WriteHeader]
  · intro file hm hp hf
    have hw : (⟨none, ""⟩ : Response).Write
        ("Получен файл: " ++ file.fileName ++ ", размер файла: " ++ fmtD file.size ++
          " байт\n") =
        ⟨some 200, "Получен файл: " ++ file.fileName ++ ", размер файла: " ++
          fmtD file.size ++ " байт\n"⟩ := by
      simp [Response.Write, Response.WriteHeader]
    cases hpu : parseUpload ⟨some 200, "Получен файл: " ++ file.fileName ++
        ", размер файла: " ++ fmtD file.size ++ " байт\n"⟩ file with
    | error w1 =>
      obtain ⟨msg, rfl⟩ := parseUpload_error _ _ _ hpu
      refine ⟨[], msg, ?_⟩
      simp only [uploadHandler, hm, hp, hf, hw, hpu, ne_eq, not_true_eq_false, if_false]
    | ok hr =>
      obtain ⟨headers, rows⟩ := hr
      obtain ⟨⟨log, e⟩, hct⟩ := createTable_total p db [] "uploaded_data" headers rows
      cases e with
      | some err =>
        refine ⟨log, "ошибка создания таблицы: " ++ err, ?_⟩
        simp only [uploadHandler, hm, hp, hf, hw, hpu, hct, httpError_after_write, ne_eq,
          not_true_eq_false, if_false]
      | none =>
        obtain ⟨⟨log1, e1⟩, hir⟩ := insertRows_total db log "uploaded_data" headers rows
        cases e1 with
        | some err =>
          refine ⟨log1, "ошибка вставки строк: " ++ err, ?_⟩
          simp only [uploadHandler, hm, hp, hf, hw, hpu, hct, hir, httpError_after_write, ne_eq,
            not_true_eq_false, if_false]
        | none =>
          refine ⟨log1, "Колонки: " ++ fmtV headers ++ "\n" ++
            ("Кол-во строк: " ++ fmtD rows.length), ?_⟩
          simp only [uploadHandler, hm, hp, hf, hw, hpu, hct, hir, ne_eq,
            not_true_eq_false, if_false]
          simp [Response.Write, Response.WriteHeader, String.append_assoc]

/-- C15 (evaluation at a failing input): `d.csv` whose content the CSV reader
rejects; the body is the received-file line followed by the error line. -/
theorem uploadHandler_error_body_witness :
    uploadHandler (fun _ => true) (fun _ _ => none)
        ⟨"POST", none, .ok ⟨"d.csv", 8, .error "bad quote", .error ""⟩⟩ =
      some (⟨some 200,
        "Получен файл: d.csv, размер файла: 8 байт\nОшибка чтения файла: bad quote\n"⟩, []) ∧
    ∃ log more, uploadHandler (fun _ => true) (fun _ _ => none)
        ⟨"POST", none, .ok ⟨"d.csv", 8, .error "bad quote", .error ""⟩⟩ =
      some (⟨some 200,
        "Получен файл: " ++ "d.csv" ++ ", размер файла: " ++ fmtD 8 ++ " байт\n" ++
          (more ++ "\n")⟩, log) :=
  ⟨by decide,
    (uploadHandler_error_body (fun _ => true) (fun _ _ => none)
      ⟨"POST", none, .ok ⟨"d.csv", 8, .error "bad quote", .error ""⟩⟩).2.2.2
      ⟨"d.csv", 8, .error "bad quote", .error ""⟩ rfl rfl rfl⟩

/-- C16: the early exit of `indentColumnTypes` does not affect its result: it
returns the types of the scan that inspects every row of every column without
stopping, and the same types for every permutation of the row list. -/
theorem indentColumnTypes_early_exit (p : String → Bool) (headers : List String)
    (rows : List (List String)) :
    indentColumnTypes p headers rows = indentColumnTypesAllRows p headers rows ∧
    ∀ rows2, rows.Perm rows2 →
      indentColumnTypes p headers rows2 = indentColumnTypes p headers rows := by
  constructor
  · unfold indentColumnTypes indentColumnTypesAllRows
    apply List.map_congr_left
    intro col _
    have h := columnIsNumAllRows_foldl p col rows true
    simp only [Bool.true_and] at h
    unfold columnIsNumAllRows
    rw [h]
  · intro rows2 hperm
    unfold indentColumnTypes
    apply List.map_congr_left
    intro col _
    rw [columnIsNum_perm p col rows rows2 hperm]

/-- C16 (witness): the non-numeric cell `x` first or last among three rows
gives the same types, those of the scan without early exit. -/
theorem indentColumnTypes_early_exit_witness :
    indentColumnTypes (fun s => s == "1") ["a", "b"] [["1", "1"], ["1"], ["x", "1"]] =
      indentColumnTypes (fun s => s == "1") ["a", "b"] [["x", "1"], ["1", "1"], ["1"]] ∧
    indentColumnTypes (fun s => s == "1") ["a", "b"] [["x", "1"], ["1", "1"], ["1"]] =
      indentColumnTypesAllRows (fun s => s == "1") ["a", "b"] [["x", "1"], ["1", "1"], ["1"]] :=
  ⟨(indentColumnTypes_early_exit (fun s => s == "1") ["a", "b"]
      [["x", "1"], ["1", "1"], ["1"]]).2 [["1", "1"], ["1"], ["x", "1"]] (by decide),
    (indentColumnTypes_early_exit (fun s => s == "1") ["a", "b"]
      [["x", "1"], ["1", "1"], ["1"]]).1⟩

/-- C17: for a non-empty header list (a type list with an entry for every
header, and at least one row, so that `insertRows` builds its statement) the
statements of `createTable` and `insertRows` agree.  `createTable` executes
the `CREATE TABLE` text over `quoteIdent tableName` whose column list has, at
position `i`, `quoteIdent h` for header `h`, a blank and the type.
`insertRows` executes at least one statement and every statement it executes
is the `INSERT` text over the same `quoteIdent tableName`, whose column list
is `quoteIdent h` for every header in header order and whose placeholder list
is `$1, ..., $n`.  Both column lists and the placeholder list have
`len(headers)` entries; at every position the two column entries read back, as
SQL quoted identifiers, to the same name `h`, and the placeholder there is
`$(i+1)`. -/
theorem createTable_insertRows_agree (db : DB) (log log2 : List Call) (tableName : String)
    (headers columnTypes : List String) (rows : List (List String)) (hne : headers ≠ [])
    (hlen : headers.length ≤ columnTypes.length) (hrows : rows ≠ []) :
    (∃ err, createTable db log tableName headers columnTypes =
      some (log ++ [⟨"CREATE TABLE IF NOT EXISTS " ++ quoteIdent tableName ++ " (" ++
        Join (List.zipWith
          (fun h t => quoteIdent h ++ " " ++ (if t = "" then "VARCHAR" else t))
          headers columnTypes) ", " ++ ")", []⟩], err)) ∧
    (∃ calls err2, insertRows db log2 tableName headers rows = some (log2 ++ calls, err2) ∧
      calls ≠ [] ∧
      ∀ c ∈ calls, c.query =
        "INSERT INTO " ++ quoteIdent tableName ++ " (" ++ Join (headers.map quoteIdent) ", " ++
          ") VALUES (" ++
          Join ((List.range' 1 headers.length).map (fun k => "$" ++ Nat.repr k)) ", " ++ ")") ∧
    insertStmt tableName headers =
      "INSERT INTO " ++ quoteIdent tableName ++ " (" ++ Join (headers.map quoteIdent) ", " ++
        ") VALUES (" ++
        Join ((List.range' 1 headers.length).map (fun k => "$" ++ Nat.repr k)) ", " ++ ")" ∧
    (List.zipWith (fun h t => quoteIdent h ++ " " ++ (if t = "" then "VARCHAR" else t))
      headers columnTypes).length = headers.length ∧
    (headers.map quoteIdent).length = headers.length ∧
    ((List.range' 1 headers.length).map (fun k => "$" ++ Nat.repr k)).length = headers.length ∧
    ∀ (i : Nat) (h t : String), headers[i]? = some h → columnTypes[i]? = some t →
      (List.zipWith (fun h t => quoteIdent h ++ " " ++ (if t = "" then "VARCHAR" else t))
        headers columnTypes)[i]? =
        some (quoteIdent h ++ " " ++ (if t = "" then "VARCHAR" else t)) ∧
      (headers.map quoteIdent)[i]? = some (quoteIdent h) ∧
      ((List.range' 1 headers.length).map (fun k => "$" ++ Nat.repr k))[i]? =
        some ("$" ++ Nat.repr (i + 1)) ∧
      readQuotedIdent (quoteIdent h ++ " " ++ (if t = "" then "VARCHAR" else t)).data =
        some (h.data, (" " ++ (if t = "" then "VARCHAR" else t)).data) ∧
      readQuotedIdent (quoteIdent h).data = some (h.data, []) := by
  have hstmt : insertStmt tableName headers =
      "INSERT INTO " ++ quoteIdent tableName ++ " (" ++ Join (headers.map quoteIdent) ", " ++
        ") VALUES (" ++
        Join ((List.range' 1 headers.length).map (fun k => "$" ++ Nat.repr k)) ", " ++ ")" := by
    simp only [insertStmt, placeHolders_eq]
  refine ⟨⟨_, createTable_eq db log tableName headers columnTypes hne hlen⟩, ?_, hstmt, ?_,
    by simp, by simp, ?_⟩
  · obtain ⟨row, rest, rfl⟩ : ∃ row rest, rows = row :: rest := by
      cases rows with
      | nil => exact absurd rfl hrows
      | cons row rest => exact ⟨row, rest, rfl⟩
    obtain ⟨calls, err2, h1, h2, h3⟩ :=
      execRows_queries db (insertStmt tableName headers) headers (row :: rest) log2
    refine ⟨calls, err2, by rw [insertRows_cons, h1], h3 hrows, ?_⟩
    intro c hc
    rw [h2 c hc, hstmt]
  · simp [List.length_zipWith]
    omega
  · intro i h t hh ht
    have hi : i < headers.length := by
      by_contra hn
      rw [List.getElem?_eq_none (by omega)] at hh
      exact Option.noConfusion hh
    refine ⟨?_, ?_, ?_, ?_, readQuotedIdent_quoteIdent h⟩
    · simp [List.getElem?_zipWith, hh, ht]
    · simp [List.getElem?_map, hh]
    · rw [List.getElem?_map, List.getElem?_range' 1 1 hi]
      simp [Nat.add_comm]
    · have happ := readQuotedIdent_quoteIdent_append h
        (" " ++ (if t = "" then "VARCHAR" else t)).data
        (by
          have : (" " : String).data = [' '] := rfl
          simp [this])
      simpa [String.append_assoc] using happ

/-- C17 (witness): a header name holding a double quote, given twice, on a
database whose calls succeed: the `CREATE TABLE` and the one `INSERT` executed,
as literals. -/
theorem createTable_insertRows_agree_witness :
    createTable (fun _ _ => none) [] "t" ["a\"b", "a\"b"] ["NUMERIC", ""] =
      some ([⟨"CREATE TABLE IF NOT EXISTS \"t\" (\"a\"\"b\" NUMERIC, \"a\"\"b\" VARCHAR)", []⟩],
        none) ∧
    insertRows (fun _ _ => none) [] "t" ["a\"b", "a\"b"] [["1", "2"]] =
      some ([⟨"INSERT INTO \"t\" (\"a\"\"b\", \"a\"\"b\") VALUES ($1, $2)",
        [some "1", some "2"]⟩], none) ∧
    insertStmt "t" ["a\"b", "a\"b"] =
      "INSERT INTO \"t\" (\"a\"\"b\", \"a\"\"b\") VALUES ($1, $2)" ∧
    readQuotedIdent (quoteIdent "a\"b" ++ " " ++ "VARCHAR").data =
      some ("a\"b".data, " VARCHAR".data) :=
  ⟨by decide, by decide,
    (createTable_insertRows_agree (fun _ _ => none) [] [] "t" ["a\"b", "a\"b"]
      ["NUMERIC", ""] [["1", "2"]] (by decide) (by decide) (by decide)).2.2.1,
    ((createTable_insertRows_agree (fun _ _ => none) [] [] "t" ["a\"b", "a\"b"]
      ["NUMERIC", ""] [["1", "2"]] (by decide) (by decide) (by decide)).2.2.2.2.2.2
      1 "a\"b" "" rfl rfl).2.2.2.1⟩

end TestEx
